import Mathlib

/-!
# Verification of the `grace` package (orivil/grace)

Shallow embedding of the graceful-restart server in Lean 4, translated from
the Go sources:

* `src/unnamed/part_001` — the `grace` package: `netConn`, `netListener`,
  `NewListener`, `initSocketFiles`, `startNewProcess`, `Restart`, `Stop`,
  `BeforeCloseCall` / `AfterCloseCall`, `ListenSignal`.
* `src/server.go` — the `GraceServer` variant: `GracefulConn.Close`,
  `GraceServer.Restart`, `GraceServer.listenEvents`.

Go library semantics that the code relies on are embedded explicitly:
`sync.WaitGroup` is a natural-number counter whose `Done` panics when the
counter is zero, `os/exec.Cmd.ExtraFiles` entry `i` becomes descriptor
`3 + i` in the child, and a panic in `init` terminates the process with a
non-zero status (Go uses 2).
-/

namespace Grace

/-! ## Connection counter (`sync.WaitGroup`)

`waitGroup = sync.WaitGroup{}`.  `Add(1)` increments; `Done()` decrements and
panics if the counter would go negative; `Wait()` returns only when the
counter is zero. -/

/-- Outcome of `sync.WaitGroup.Done()`: either the decremented counter, or the
Go runtime panic "sync: negative WaitGroup counter". -/
inductive WgResult where
  | ok (counter : Nat)
  | negativePanic
  deriving DecidableEq, Repr

/-- `waitGroup.Add(1)`. -/
def wgAdd (counter : Nat) : Nat := counter + 1

/-- `waitGroup.Done()`: decrements, panicking when the counter is already 0
(Go: "sync: negative WaitGroup counter"). -/
def wgDone (counter : Nat) : WgResult :=
  match counter with
  | 0 => .negativePanic
  | n + 1 => .ok n

/-! ## `netConn.Close` (part_001 lines 82-87) and `GracefulConn.Close`
(server.go lines 456-460)

Both decorators do, on every call:
```go
err := n.Conn.Close()
waitGroup.Done()
return err
```
There is no one-shot guard: each call decrements the wait group once. -/

/-- State of one decorated connection together with the shared counter. -/
structure ConnCloseState where
  /-- whether the underlying `net.Conn` has been closed already -/
  underlyingClosed : Bool
  /-- the shared `waitGroup` counter -/
  counter : Nat
  deriving DecidableEq, Repr

/-- Result of one `netConn.Close()` / `GracefulConn.Close()` call. -/
inductive ConnCloseResult where
  | ok (s : ConnCloseState)
  | panicked
  deriving DecidableEq, Repr

/-- One call of `netConn.Close` (identically `GracefulConn.Close`): close the
underlying connection (idempotent at the OS level, a second close only
returns an error value), then `waitGroup.Done()` unconditionally. -/
def netConnClose (s : ConnCloseState) : ConnCloseResult :=
  match wgDone s.counter with
  | .ok n => .ok { underlyingClosed := true, counter := n }
  | .negativePanic => .panicked

/-- Two successive `Close` calls on the same decorated connection. -/
def netConnCloseTwice (s : ConnCloseState) : ConnCloseResult :=
  match netConnClose s with
  | .ok s1 => netConnClose s1
  | .panicked => .panicked

/-! ## `netListener.Accept` (part_001 lines 95-123)

```go
closeSig.RLock()
if closeSig.closed { <-waitForever }   // parks forever
closeSig.RUnlock()
c, err := n.Listener.Accept()
if err != nil {
    closeSig.RLock()
    if closeSig.closed { <-waitForever }
    closeSig.RUnlock()
    return nil, err
} else {
    waitGroup.Add(1)
    return &netConn{Conn: c}, nil
}
```
`waitForever` is a channel nobody ever sends on or closes, so `<-waitForever`
blocks the caller forever. -/

/-- What the underlying OS `Accept` would produce. -/
inductive RawAccept where
  /-- a pending queued connection, identified by a number -/
  | conn (c : Nat)
  /-- an error (e.g. "use of closed network connection") -/
  | err
  deriving DecidableEq, Repr

/-- Outcome of `netListener.Accept`. -/
inductive AcceptOutcome where
  /-- the caller is parked forever on `<-waitForever`; `Accept` never returns -/
  | parked
  /-- a new decorated connection is returned and `waitGroup.Add(1)` ran -/
  | newConn (c : Nat)
  /-- the underlying error is returned -/
  | errReturn
  deriving DecidableEq, Repr

/-- `netListener.Accept`, parameterised by the value of `closeSig.closed`
read at the entry check, the raw accept result, and the value of
`closeSig.closed` read at the post-error re-check. -/
def netListenerAccept (closedAtEntry : Bool) (raw : RawAccept)
    (closedAfterErr : Bool) : AcceptOutcome :=
  if closedAtEntry then .parked
  else
    match raw with
    | .conn c => .newConn c
    | .err => if closedAfterErr then .parked else .errReturn

/-- Counter increment performed by a successful `Accept` on each listener
flavour: the graceful decorator runs `waitGroup.Add(1)`, a raw (undecorated)
`net.Listener` does not touch the counter. -/
def acceptCounterDelta (graceful : Bool) : Nat :=
  if graceful then 1 else 0

/-! ## `Stop` (part_001 lines 350-383) — straight-line event trace

```go
closeSig.Lock(); closeSig.closed = true; closeSig.Unlock()
for _, c := range beforeCloseCalls { c() }
for _, l := range listeners { l.Close() }
waitGroup.Wait()
for _, c := range afterCloseCalls { c() }
os.Exit(0)
```
The body is a straight line; we embed it as the sequence of observable events
it performs, indexing hooks and listeners by their registration position. -/

/-- Observable events of `Stop`. -/
inductive StopEvent where
  /-- `closeSig.closed = true` -/
  | setClosed
  /-- the `i`-th registered `beforeCloseCalls` callback runs -/
  | preHook (i : Nat)
  /-- the `i`-th registered listener's `Close()` runs -/
  | closeListener (i : Nat)
  /-- `waitGroup.Wait()` returns (counter reached zero) -/
  | waitReturned
  /-- the `i`-th registered `afterCloseCalls` callback runs -/
  | postHook (i : Nat)
  /-- `os.Exit(0)` -/
  | exitZero
  deriving DecidableEq, Repr

/-- The exact event sequence `Stop` performs, given the number of registered
pre-close hooks, listeners and post-close hooks. -/
def stopTrace (numPre numListeners numPost : Nat) : List StopEvent :=
  StopEvent.setClosed ::
    ((List.range numPre).map StopEvent.preHook
      ++ ((List.range numListeners).map StopEvent.closeListener
        ++ (StopEvent.waitReturned ::
          ((List.range numPost).map StopEvent.postHook
            ++ [StopEvent.exitZero]))))

/-! ## Process-level step system

Interleaving of `Stop` with connection activity.  The suspension point inside
`Stop` is `waitGroup.Wait()`: everything before it (set closed, pre hooks,
listener closes) is straight-line code of the stopping task, and everything
after it (post hooks, `os.Exit(0)`) runs only once the counter is zero.
Connections close concurrently from their own tasks via `netConn.Close`,
which runs `waitGroup.Done()` unconditionally on every call — there is no
one-shot guard, so a decorated connection whose underlying connection is
already closed still decrements the counter when `Close` is called again
(see `netConnClose`).  `Done` on a zero counter is the WaitGroup panic.
New connections are accepted (`waitGroup.Add(1)`) only while
`closeSig.closed` is still false — afterwards `Accept` parks (see
`netListenerAccept`). -/

/-- Coordinator phase. `running`: before `Stop`; `draining`: `Stop` has set
`closed`, run the pre hooks, closed the listeners and is blocked in
`waitGroup.Wait()`; `exited`: `Wait` returned, post hooks ran, `os.Exit(0)`
was reached; `crashed`: a `waitGroup.Done()` hit the negative-counter
panic and the process died without reaching `os.Exit(0)`. -/
inductive Phase where
  | running
  | draining
  | exited
  | crashed
  deriving DecidableEq, Repr

/-- Global state: the phase, the identities of the registered connections
whose `Close` has not yet run, the identities of the registered connections
already closed at least once (their decorators still exist, and `Close` can
run again on them), and the `waitGroup` counter. -/
structure SysState where
  phase : Phase
  conns : List Nat
  closedConns : List Nat
  counter : Nat
  deriving DecidableEq, Repr

/-- One step of the system.  `accept` is enabled only in `running` (after
`closed` is set, `netListenerAccept` parks and never reaches
`waitGroup.Add`).  `closeConn` is the first `netConn.Close` call on an open
connection: `waitGroup.Done()` on a positive counter, connection moved to
the closed set.  `closeAgain` is a further `Close` call on an
already-closed decorated connection (e.g. the `defer conn.Close()` in
`ListenNetAndServe` after the handler closed it): the underlying close only
returns an error, but `waitGroup.Done()` runs again unconditionally,
consuming a count while the open set is untouched.  `closePanic` is any
`Close` call arriving when the counter is already zero: `Done` panics and
the process crashes.  `stop` is the prefix of `Stop` up to
`waitGroup.Wait()`; `exitStep` is `Wait` returning — enabled only at
counter zero — followed by the post hooks and `os.Exit(0)`. -/
inductive Step : SysState → SysState → Prop where
  | accept (c : Nat) (conns cc : List Nat) (n : Nat) :
      Step ⟨.running, conns, cc, n⟩ ⟨.running, c :: conns, cc, wgAdd n⟩
  | closeConn (ph : Phase) (c : Nat) (conns cc : List Nat) (n : Nat)
      (hc : c ∈ conns) :
      Step ⟨ph, conns, cc, n + 1⟩ ⟨ph, conns.erase c, c :: cc, n⟩
  | closeAgain (ph : Phase) (c : Nat) (conns cc : List Nat) (n : Nat)
      (hc : c ∈ cc) :
      Step ⟨ph, conns, cc, n + 1⟩ ⟨ph, conns, cc, n⟩
  | closePanic (ph : Phase) (c : Nat) (conns cc : List Nat)
      (hc : c ∈ conns ∨ c ∈ cc) :
      Step ⟨ph, conns, cc, 0⟩ ⟨.crashed, conns, cc, 0⟩
  | stop (conns cc : List Nat) (n : Nat) :
      Step ⟨.running, conns, cc, n⟩ ⟨.draining, conns, cc, n⟩
  | exitStep (conns cc : List Nat) :
      Step ⟨.draining, conns, cc, 0⟩ ⟨.exited, conns, cc, 0⟩

/-- The steps of a run in which every connection's `Close` is invoked
exactly once: the double-close steps (`closeAgain`, `closePanic`) do not
occur.  A sub-relation of `Step` (see `stepOnce_step`). -/
inductive StepOnce : SysState → SysState → Prop where
  | accept (c : Nat) (conns cc : List Nat) (n : Nat) :
      StepOnce ⟨.running, conns, cc, n⟩ ⟨.running, c :: conns, cc, wgAdd n⟩
  | closeConn (ph : Phase) (c : Nat) (conns cc : List Nat) (n : Nat)
      (hc : c ∈ conns) :
      StepOnce ⟨ph, conns, cc, n + 1⟩ ⟨ph, conns.erase c, c :: cc, n⟩
  | stop (conns cc : List Nat) (n : Nat) :
      StepOnce ⟨.running, conns, cc, n⟩ ⟨.draining, conns, cc, n⟩
  | exitStep (conns cc : List Nat) :
      StepOnce ⟨.draining, conns, cc, 0⟩ ⟨.exited, conns, cc, 0⟩

/-- Reflexive-transitive closure of `Step`. -/
def Reaches : SysState → SysState → Prop :=
  Relation.ReflTransGen Step

/-- Reflexive-transitive closure of `StepOnce`: runs without double
closes. -/
def ReachesOnce : SysState → SysState → Prop :=
  Relation.ReflTransGen StepOnce

/-- Initial state for a run that has `conns` open connections at the moment
considered: counter equals the number of open connections (each contributed
exactly one `waitGroup.Add(1)` at accept time), none closed yet. -/
def initState (conns : List Nat) : SysState :=
  ⟨.running, conns, [], conns.length⟩

/-! ## `Restart` (part_001 lines 320-347) and `GraceServer.Restart`
(server.go lines 361-374)

```go
func Restart() {
    if osSupportSocketFile {
        err := startNewProcess()
        if err != nil { logf(...); return }
        Stop()
    } else {
        BeforeCloseCall(func() { startNewProcess() ... })
        Stop()
    }
}
```
On the non-socket-file branch `Stop()` runs unconditionally; the spawn is
attempted from inside a before-close callback during `Stop`, and its error is
only logged. -/

/-- Coordinator state as observed around a `Restart` call. -/
structure CoordState where
  /-- `closeSig.closed` (false = Accepting, true = Draining/Closed) -/
  closed : Bool
  /-- number of registered listeners not yet closed -/
  openListeners : Nat
  /-- whether the process has reached `os.Exit` -/
  exited : Bool
  deriving DecidableEq, Repr

/-- The state changes `Stop` performs, end to end (set closed, close all
listeners, wait, exit). -/
def stopRun (_s : CoordState) : CoordState :=
  { closed := true, openListeners := 0, exited := true }

/-- `Restart`, parameterised by platform support and by whether
`startNewProcess` succeeds.  With socket-file support a failed spawn only
logs and returns — the state is untouched.  Without socket-file support,
`Stop` runs regardless of the spawn outcome (the spawn happens inside a
before-close callback and its failure is only logged). -/
def restartRun (osSupportSocketFile : Bool) (spawnOk : Bool)
    (s : CoordState) : CoordState :=
  if osSupportSocketFile then
    if spawnOk then stopRun s else s
  else
    stopRun s

/-- `GraceServer.Restart` (server.go): un-watch, try `startNewProcess`; on
failure re-watch and keep serving; the server state is never stopped here. -/
structure GsState where
  watching : Bool
  serving : Bool
  deriving DecidableEq, Repr

/-- `GraceServer.Restart` effect on the server state when spawn fails: the
watch is removed then re-added, and serving continues. -/
def gsRestartFail (s : GsState) : GsState :=
  { watching := true, serving := s.serving }

/-! ## Debounce timer (`ListenSignal`, part_001 lines 440-463;
`GraceServer.listenEvents`, server.go lines 329-352)

```go
timer := time.NewTimer(0); <-timer.C
go func() { for { select {
    case evt := <-watcher.Events:
        switch evt.Op { case fsnotify.Chmod, fsnotify.Write:
            timer.Reset(time.Second) } ... } } }()
go func() { <-timer.C; Restart() }()
```
Each qualifying file event re-arms the single-shot timer; when the timer
fires, the firing goroutine calls `Restart()` once.  We model discrete time:
events arrive at non-decreasing instants; `Reset` at instant `t` with delay
`D` sets the pending deadline `t + D`; the timer fires at its deadline if no
later `Reset` pre-empts it. -/

/-- `fsnotify` operations. -/
inductive FileOp where
  | chmod
  | write
  | create
  | remove
  | rename
  deriving DecidableEq, Repr

/-- Which events re-arm the timer: part_001's `switch evt.Op` matches exactly
`fsnotify.Chmod` and `fsnotify.Write`. -/
def qualifies (op : FileOp) : Bool :=
  match op with
  | .chmod => true
  | .write => true
  | _ => false

/-- Runs the watcher/timer pair over a time-stamped event list: `pending` is
the armed deadline if the timer is armed.  Before handling an event at
instant `t`, an armed deadline `d ≤ t` has already fired (one `Restart()`);
a qualifying event then re-arms the deadline to `t + D`, a non-qualifying
event leaves the timer alone.  After the last event, an armed timer fires.
Returns the instants at which `Restart()` is invoked. -/
def debounceRun (D : Nat) (pending : Option Nat) :
    List (Nat × FileOp) → List Nat
  | [] =>
    match pending with
    | some d => [d]
    | none => []
  | (t, op) :: rest =>
    match pending with
    | some d =>
      if d ≤ t then
        d :: debounceRun D (if qualifies op then some (t + D) else none) rest
      else
        debounceRun D (if qualifies op then some (t + D) else some d) rest
    | none =>
      debounceRun D (if qualifies op then some (t + D) else none) rest

/-- A burst lying within one debounce window, relative to the previously
armed deadline `d`: each event happens no earlier than its predecessor and
strictly before the deadline armed by the predecessor, and every event
qualifies. -/
def burstFrom (D : Nat) : Nat → Nat → List (Nat × FileOp) → Bool
  | _prev, _d, [] => true
  | prev, d, (t, op) :: rest =>
    decide (prev ≤ t) && decide (t < d) && qualifies op
      && burstFrom D t (t + D) rest

/-! ## Descriptor exchange

### `startNewProcess` (part_001 lines 201-243)

```go
pipeReader, pipeWriter, _ = os.Pipe()
cmd.ExtraFiles = append([]*os.File{pipeReader}, socketFiles...)
...
return json.NewEncoder(pipeWriter).Encode(socketIndex)
```
Go's `os/exec` contract: `ExtraFiles[i]` is inherited by the child as
descriptor `3 + i` (0-2 are stdio). -/

/-- Child descriptor number of `cmd.ExtraFiles` entry `i` (Go `os/exec`
contract). -/
def childFdOfExtraFile (i : Nat) : Nat := 3 + i

/-- The extra-file list the parent passes:
`append([]*os.File{pipeReader}, socketFiles...)` — the pipe read end first,
then the tracked listener files in recording order (`socketFiles` names). -/
def extraFiles (socketFiles : List String) : List String :=
  "pipe-reader" :: socketFiles

/-! ### `NewListener` (part_001 lines 271-316) and
`initSocketFiles` (part_001 lines 245-268) -/

/-- Package-level registration state: `socketFiles` (name, descriptor-number
recorded for the child) in append order, `socketIndex` (addr ↦ fd), and the
registered graceful `listeners` (their addresses, in order). -/
structure PkgState where
  socketFiles : List (String × Nat)
  socketIndex : List (String × Nat)
  listeners : List String
  deriving DecidableEq, Repr

/-- The empty initial package state (parent process before any
`NewListener`). -/
def initPkgState : PkgState :=
  { socketFiles := [], socketIndex := [], listeners := [] }

/-- First stored file whose `Name()` equals `addr` — the
`for _, f := range socketFiles { if f.Name() == addr {...} }` loop. -/
def findSocketFile : List (String × Nat) → String → Option Nat
  | [], _ => none
  | (name, fd) :: rest, addr =>
    if name = addr then some fd else findSocketFile rest addr

/-- How the listener returned by `NewListener` was obtained. -/
inductive ListenerOrigin where
  /-- `net.FileListener` over an inherited descriptor — no new `bind` -/
  | fromFile (fd : Nat)
  /-- `net.Listen` — a fresh bind, wrapped in the graceful decorator -/
  | freshBind
  /-- `net.Listen` — a fresh bind returned raw, undecorated and
  unregistered (the `!osSupportSocketFile` branch) -/
  | rawBind
  deriving DecidableEq, Repr

/-- Whether a listener of this origin got the graceful decorator (whose
`Accept` runs `waitGroup.Add(1)`). -/
def isGraceful (o : ListenerOrigin) : Bool :=
  match o with
  | .fromFile _ => true
  | .freshBind => true
  | .rawBind => false

/-- `NewListener(netType, addr)`.  With socket-file support: scan
`socketFiles` for a file named `addr`; if found, rebuild the listener from
that descriptor, wrap and register it.  Otherwise `net.Listen`, record
`socketIndex[addr] = len(socketFiles) + 4`, append the extracted file to
`socketFiles`, wrap and register.  Without support: plain `net.Listen`,
nothing wrapped, nothing recorded. -/
def newListener (osSupportSocketFile : Bool) (s : PkgState) (addr : String) :
    ListenerOrigin × PkgState :=
  if osSupportSocketFile then
    match findSocketFile s.socketFiles addr with
    | some fd =>
      (.fromFile fd, { s with listeners := s.listeners ++ [addr] })
    | none =>
      let fd := s.socketFiles.length + 4
      (.freshBind,
       { socketFiles := s.socketFiles ++ [(addr, fd)],
         socketIndex := s.socketIndex ++ [(addr, fd)],
         listeners := s.listeners ++ [addr] })
  else
    (.rawBind, s)

/-- A sequence of `NewListener` calls, returning the origins in call order
and the final state. -/
def newListeners (osSupportSocketFile : Bool) (s : PkgState) :
    List String → List ListenerOrigin × PkgState
  | [] => ([], s)
  | addr :: rest =>
    let r1 := newListener osSupportSocketFile s addr
    let r2 := newListeners osSupportSocketFile r1.2 rest
    (r1.1 :: r2.1, r2.2)

/-- `initSocketFiles` in a child with socket-file support: decode
`socketIndex` from the inherited pipe (descriptor 3); on success build
`socketFiles` as `os.NewFile(idx, name)` for every index entry; a decode
error propagates. -/
def initSocketFilesChild (decoded : Except Unit (List (String × Nat))) :
    Except Unit (List (String × Nat)) :=
  match decoded with
  | .error e => .error e
  | .ok idx => .ok idx

/-! ### child `init` (part_001 lines 178-199)

```go
err := initSocketFiles()
if err != nil { panic(err) }
```
A panic during `init` aborts the program before `main` (so before any
`NewListener`); the Go runtime exits with status 2. -/

/-- Observable result of child startup. -/
structure ChildStartup where
  /-- `some c`: the process terminated with exit status `c` during `init` -/
  exitStatus : Option Nat
  /-- the decoded socket files (empty if startup crashed) -/
  socketFiles : List (String × Nat)
  /-- listeners created (none can exist if `init` panicked) -/
  listeners : List String
  deriving DecidableEq, Repr

/-- Child `init`: decode the exchange payload; on failure `panic(err)`
terminates with Go's panic exit status 2 before `main` runs, so no listener
is ever created and the process never serves. -/
def childInit (decoded : Except Unit (List (String × Nat))) : ChildStartup :=
  match initSocketFilesChild decoded with
  | .error _ => { exitStatus := some 2, socketFiles := [], listeners := [] }
  | .ok files => { exitStatus := none, socketFiles := files, listeners := [] }

/-- A run fragment that performs exactly the first-close `closeConn` steps
for the listed connections, in the listed order, and nothing else. -/
inductive Closes : SysState → List Nat → SysState → Prop where
  | nil (s : SysState) : Closes s [] s
  | cons (ph : Phase) (c : Nat) (conns cc : List Nat) (n : Nat)
      (rest : List Nat) (t : SysState) (hc : c ∈ conns)
      (h : Closes ⟨ph, conns.erase c, c :: cc, n⟩ rest t) :
      Closes ⟨ph, conns, cc, n + 1⟩ (c :: rest) t

/-- The invariant of single-close runs: the `waitGroup` counter equals the
number of open registered connections, and once the process has exited the
counter is zero. -/
def SysInv (s : SysState) : Prop :=
  s.counter = s.conns.length ∧ (s.phase = .exited → s.counter = 0)

/-- The exit gate, an invariant of all runs — double closes included: once
the process has exited (through `waitGroup.Wait()` and `os.Exit(0)`), the
counter is zero. -/
def GateInv (s : SysState) : Prop :=
  s.phase = .exited → s.counter = 0

end Grace

namespace Grace

/-! ## Helper lemmas -/

theorem stepOnce_step {s t : SysState} (h : StepOnce s t) : Step s t := by
  cases h with
  | accept c conns cc n => exact Step.accept c conns cc n
  | closeConn ph c conns cc n hc => exact Step.closeConn ph c conns cc n hc
  | stop conns cc n => exact Step.stop conns cc n
  | exitStep conns cc => exact Step.exitStep conns cc

theorem reachesOnce_reaches {s t : SysState} (h : ReachesOnce s t) :
    Reaches s t := by
  induction h with
  | refl => exact Relation.ReflTransGen.refl
  | tail _ hstep ih => exact ih.tail (stepOnce_step hstep)

theorem step_gate {s t : SysState} (h : Step s t) (hi : GateInv s) :
    GateInv t := by
  cases h with
  | accept c conns cc n => intro h; cases h
  | closeConn ph c conns cc n hc =>
    intro hph
    have := hi hph
    simp at this
  | closeAgain ph c conns cc n hc =>
    intro hph
    have := hi hph
    simp at this
  | closePanic ph c conns cc hc => intro h; cases h
  | stop conns cc n => intro h; cases h
  | exitStep conns cc => intro _; rfl

theorem reaches_gate {s t : SysState} (h : Reaches s t) (hi : GateInv s) :
    GateInv t := by
  induction h with
  | refl => exact hi
  | tail _ hstep ih => exact step_gate hstep ih

theorem stepOnce_inv {s t : SysState} (h : StepOnce s t) (hi : SysInv s) :
    SysInv t := by
  cases h with
  | accept c conns cc n =>
    refine ⟨?_, by intro h; cases h⟩
    simpa [wgAdd] using hi.1
  | closeConn ph c conns cc n hc =>
    refine ⟨?_, ?_⟩
    · have h1 : n + 1 = conns.length := hi.1
      have h2 : (conns.erase c).length = conns.length - 1 :=
        List.length_erase_of_mem hc
      simp only [h2, ← h1]
      omega
    · intro hph
      have := hi.2 hph
      simp at this
  | stop conns cc n =>
    exact ⟨hi.1, by intro h; cases h⟩
  | exitStep conns cc =>
    exact ⟨hi.1, fun _ => rfl⟩

theorem reachesOnce_inv {s t : SysState} (h : ReachesOnce s t)
    (hi : SysInv s) : SysInv t := by
  induction h with
  | refl => exact hi
  | tail _ hstep ih => exact stepOnce_inv hstep ih

theorem closes_reachesOnce {s t : SysState} {l : List Nat}
    (h : Closes s l t) : ReachesOnce s t := by
  induction h with
  | nil s => exact Relation.ReflTransGen.refl
  | cons ph c conns cc n rest t hc _ ih =>
    exact Relation.ReflTransGen.head (StepOnce.closeConn ph c conns cc n hc) ih

theorem closes_perm (perm : List Nat) :
    ∀ conns cc : List Nat, List.Perm perm conns →
      Closes ⟨.draining, conns, cc, conns.length⟩ perm
        ⟨.draining, [], perm.reverse ++ cc, 0⟩ := by
  induction perm with
  | nil =>
    intro conns cc h
    have hc : conns = [] := (List.Perm.eq_nil h.symm)
    subst hc
    exact Closes.nil _
  | cons c rest ih =>
    intro conns cc h
    have hc : c ∈ conns := h.subset (List.mem_cons_self c rest)
    have hlen : conns.length = rest.length + 1 := by
      have := h.length_eq
      simpa using this.symm
    have hperm : List.Perm rest (conns.erase c) :=
      List.Perm.cons_inv (h.trans (List.perm_cons_erase hc))
    have hel : (conns.erase c).length = rest.length := by
      have := List.length_erase_of_mem hc
      simp [this, hlen]
    have htail := ih (conns.erase c) (c :: cc) hperm
    rw [hel] at htail
    have hrev : (c :: rest).reverse ++ cc = rest.reverse ++ (c :: cc) := by
      simp
    have := Closes.cons .draining c conns cc rest.length rest _ hc htail
    rw [hrev]
    simpa [hlen] using this

/-! ## Claim C1 -/

/-- Claim C1 counterexample: with connections 1 and 2 open when `Stop()` is
called (counter 2), the process can reach `os.Exit(0)` while connection 2
is still open.  Run: `Stop` sets closed and blocks in `Wait`; connection
1's `Close` runs (counter 2 → 1); connection 1's `Close` runs a second time
(`netConn.Close` has no one-shot guard — e.g. the handler closed it and the
`defer conn.Close()` of `ListenNetAndServe` runs it again), and the
unconditional `waitGroup.Done()` takes the counter 1 → 0; `Wait` returns
and the process exits with connection 2 still in the open set. -/
theorem exit_with_open_connection_cex :
    Reaches (initState [1, 2]) ⟨.exited, [2], [1], 0⟩ ∧
    ([2] : List Nat) ≠ [] ∧ (2 : Nat) ∈ ([2] : List Nat) := by
  refine ⟨?_, by decide, by decide⟩
  have h1 : Step (initState [1, 2]) ⟨.draining, [1, 2], [], 2⟩ :=
    Step.stop [1, 2] [] 2
  have he : ([1, 2] : List Nat).erase 1 = [2] := by decide
  have h2 : Step ⟨.draining, [1, 2], [], 2⟩ ⟨.draining, [2], [1], 1⟩ := by
    have hs := Step.closeConn .draining 1 [1, 2] [] 1 (by decide)
    rw [he] at hs
    exact hs
  have h3 : Step ⟨.draining, [2], [1], 1⟩ ⟨.draining, [2], [1], 0⟩ :=
    Step.closeAgain .draining 1 [2] [1] 0 (by decide)
  have h4 : Step ⟨.draining, [2], [1], 0⟩ ⟨.exited, [2], [1], 0⟩ :=
    Step.exitStep [2] [1]
  exact Relation.ReflTransGen.head h1 (Relation.ReflTransGen.head h2
    (Relation.ReflTransGen.head h3 (Relation.ReflTransGen.single h4)))

/-- Claim C1 amended: `Stop()` never lets the process reach `Exited` before
the `waitGroup` counter is zero (this gate holds on all runs, double closes
included); and provided each open connection's `Close` runs exactly once —
the double close of C2 not occurring — the counter equals the number of
open connections throughout, so for any number N ≥ 0 of connections open
when `Stop()` is called the process does not reach `Exited` until all N
have individually closed, and closing them in any order (any permutation
`perm`) drains the counter and lets the process exit.  A double close can
satisfy the wait while a connection is still open
(`exit_with_open_connection_cex`). -/
theorem stop_waits_for_all_connections (conns perm : List Nat)
    (hperm : List.Perm perm conns) (s : SysState)
    (hr : Reaches (initState conns) s) (s1 : SysState)
    (hr1 : ReachesOnce (initState conns) s1) :
    (s.phase = .exited → s.counter = 0) ∧
    (s1.phase = .exited → s1.conns = [] ∧ s1.counter = 0) ∧
    Closes ⟨.draining, conns, [], conns.length⟩ perm
      ⟨.draining, [], perm.reverse, 0⟩ ∧
    ReachesOnce (initState conns) ⟨.exited, [], perm.reverse, 0⟩ := by
  have hcl : Closes ⟨.draining, conns, [], conns.length⟩ perm
      ⟨.draining, [], perm.reverse, 0⟩ := by
    have := closes_perm perm conns [] hperm
    simpa using this
  refine ⟨?_, ?_, hcl, ?_⟩
  · exact fun hex => reaches_gate hr (by intro h; cases h) hex
  · intro hex
    have hi := reachesOnce_inv hr1 ⟨rfl, by intro h; cases h⟩
    have hcount : s1.counter = 0 := hi.2 hex
    have hlen : s1.conns.length = 0 := by rw [← hi.1, hcount]
    exact ⟨List.length_eq_zero.mp hlen, hcount⟩
  · have h1 : StepOnce (initState conns) ⟨.draining, conns, [], conns.length⟩ :=
      StepOnce.stop conns [] conns.length
    have h2 : ReachesOnce ⟨.draining, conns, [], conns.length⟩
        ⟨.draining, [], perm.reverse, 0⟩ := closes_reachesOnce hcl
    have h3 : StepOnce ⟨.draining, [], perm.reverse, 0⟩
        ⟨.exited, [], perm.reverse, 0⟩ := StepOnce.exitStep [] perm.reverse
    exact Relation.ReflTransGen.head h1 (h2.tail h3)

/-- Witness for the amended C1 at two open connections, closed once each in
reverse order. -/
theorem stop_waits_for_all_connections_witness :
    ReachesOnce (initState [1, 2]) ⟨.exited, [], [1, 2], 0⟩ := by
  have h := (stop_waits_for_all_connections [1, 2] [2, 1] (by decide)
    (initState [1, 2]) Relation.ReflTransGen.refl (initState [1, 2])
    Relation.ReflTransGen.refl).2.2.2
  simpa using h

/-! ## Claim C2 -/

/-- Claim C2 counterexample: `netConn.Close` has no one-shot guard, so a
double close does not decrement the counter exactly once.  With a single
registered connection (counter 1), the second `Close` call runs
`waitGroup.Done()` again and hits the negative-counter panic instead of
leaving the counter at 0; with another connection still registered
(counter 2), the double close silently consumes the other connection's
contribution, driving the counter to 0. -/
theorem double_close_not_idempotent_cex :
    netConnCloseTwice { underlyingClosed := false, counter := 1 } =
      .panicked ∧
    netConnCloseTwice { underlyingClosed := false, counter := 2 } =
      .ok { underlyingClosed := true, counter := 0 } := by
  decide

/-- Claim C2 amended: each `Close` call on the decorator closes the
underlying connection and decrements the counter exactly once per call —
there is no one-shot guard, so a second call decrements again: it panics
when the counter is already zero, and otherwise removes a count contributed
by another connection. -/
theorem close_decrements_once_per_call (s : ConnCloseState) :
    (0 < s.counter → netConnClose s =
      .ok { underlyingClosed := true, counter := s.counter - 1 }) ∧
    (s.counter = 0 → netConnClose s = .panicked) ∧
    (1 < s.counter → netConnCloseTwice s =
      .ok { underlyingClosed := true, counter := s.counter - 2 }) ∧
    (s.counter = 1 → netConnCloseTwice s = .panicked) := by
  obtain ⟨b, n⟩ := s
  match n with
  | 0 => cases b <;> decide
  | 1 => cases b <;> decide
  | n + 2 =>
    refine ⟨fun _ => rfl, ?_, fun _ => rfl, ?_⟩ <;> (intro h; simp at h)

/-- Witness for the amended C2 at counter 3: one close yields 2, a double
close yields 1. -/
theorem close_decrements_once_per_call_witness :
    netConnClose { underlyingClosed := false, counter := 3 } =
      .ok { underlyingClosed := true, counter := 2 } ∧
    netConnCloseTwice { underlyingClosed := false, counter := 3 } =
      .ok { underlyingClosed := true, counter := 1 } :=
  ⟨(close_decrements_once_per_call
      { underlyingClosed := false, counter := 3 }).1 (by decide),
   (close_decrements_once_per_call
      { underlyingClosed := false, counter := 3 }).2.2.1 (by decide)⟩

/-! ## Claim C3 -/

/-- Claim C3: once `closeSig.closed` is true (Draining), every `Accept` call
on the draining listener parks the caller forever at the entry check —
whatever the underlying OS listener would produce, including a pending
queued connection — and in particular never returns a new connection. -/
theorem accept_after_draining_parks (raw : RawAccept)
    (closedAfterErr : Bool) :
    netListenerAccept true raw closedAfterErr = .parked ∧
    ∀ c : Nat, netListenerAccept true raw closedAfterErr ≠ .newConn c := by
  refine ⟨rfl, fun c h => ?_⟩
  simp [netListenerAccept] at h

/-- Witness for C3: with connection 7 pending in the OS queue, the draining
listener still parks. -/
theorem accept_after_draining_parks_witness :
    netListenerAccept true (RawAccept.conn 7) false = .parked ∧
    netListenerAccept true (RawAccept.conn 7) false ≠ .newConn 7 :=
  ⟨(accept_after_draining_parks (RawAccept.conn 7) false).1,
   (accept_after_draining_parks (RawAccept.conn 7) false).2 7⟩

/-! ## Claim C4 -/

/-- Claim C4 counterexample: on a platform without socket-file support
(`osSupportSocketFile = false`, e.g. windows), a `Restart` whose spawn fails
does not leave the process accepting — `Stop()` runs unconditionally (the
spawn is attempted from a before-close callback and its error only logged),
so from a serving state with one open listener the close flag becomes true
(Draining), the listener is closed and the process exits. -/
theorem restart_fail_no_socketfile_cex :
    restartRun false false { closed := false, openListeners := 1, exited := false } =
      { closed := true, openListeners := 0, exited := true } := by
  decide

/-- Claim C4 amended: on platforms with socket-file (descriptor-inheritance)
support, a `Restart` whose spawn fails leaves the coordinator state entirely
untouched — `CloseState` stays Accepting, no listener is closed, the process
does not exit — and `GraceServer.Restart` likewise keeps serving and
re-adds the executable watch; on platforms without socket-file support,
`Restart` runs the full stop sequence regardless of the spawn failure. -/
theorem restart_spawn_failure_keeps_serving (s : CoordState) (g : GsState) :
    restartRun true false s = s ∧
    (gsRestartFail g).serving = g.serving ∧
    (gsRestartFail g).watching = true ∧
    restartRun false false s = stopRun s := by
  refine ⟨rfl, rfl, rfl, rfl⟩

/-! ## Claim C5 — trace position and multiplicity lemmas -/

theorem stopTrace_getElem_pre (p l q i : Nat) (h : i < p) :
    (stopTrace p l q)[1 + i]? = some (StopEvent.preHook i) := by
  have hi : i < ((List.range p).map StopEvent.preHook).length := by simpa using h
  simp only [stopTrace]
  rw [show 1 + i = i + 1 by omega]
  rw [List.getElem?_cons_succ, List.getElem?_append_left hi]
  simp [List.getElem?_range h]

theorem stopTrace_getElem_close (p l q k : Nat) (h : k < l) :
    (stopTrace p l q)[1 + p + k]? = some (StopEvent.closeListener k) := by
  have hp : ((List.range p).map StopEvent.preHook).length ≤ p + k := by simp
  have hk : k < ((List.range l).map StopEvent.closeListener).length := by simpa using h
  simp only [stopTrace]
  rw [show 1 + p + k = (p + k) + 1 by omega]
  rw [List.getElem?_cons_succ, List.getElem?_append_right hp]
  simp only [List.length_map, List.length_range, Nat.add_sub_cancel_left]
  rw [List.getElem?_append_left hk]
  simp [List.getElem?_range h]

theorem stopTrace_getElem_wait (p l q : Nat) :
    (stopTrace p l q)[1 + p + l]? = some StopEvent.waitReturned := by
  have hp : ((List.range p).map StopEvent.preHook).length ≤ p + l := by simp
  have hl : ((List.range l).map StopEvent.closeListener).length ≤ l := by simp
  simp only [stopTrace]
  rw [show 1 + p + l = (p + l) + 1 by omega]
  rw [List.getElem?_cons_succ, List.getElem?_append_right hp]
  simp only [List.length_map, List.length_range, Nat.add_sub_cancel_left]
  rw [List.getElem?_append_right hl]
  simp

theorem stopTrace_getElem_post (p l q i : Nat) (h : i < q) :
    (stopTrace p l q)[2 + p + l + i]? = some (StopEvent.postHook i) := by
  have hp : ((List.range p).map StopEvent.preHook).length ≤ p + l + i + 1 := by
    simp; omega
  have hl : ((List.range l).map StopEvent.closeListener).length ≤ l + i + 1 := by
    simp; omega
  have hq : i < ((List.range q).map StopEvent.postHook).length := by simpa using h
  simp only [stopTrace]
  rw [show 2 + p + l + i = (p + l + i + 1) + 1 by omega]
  rw [List.getElem?_cons_succ, List.getElem?_append_right hp]
  simp only [List.length_map, List.length_range]
  rw [show p + l + i + 1 - p = l + i + 1 by omega]
  rw [List.getElem?_append_right hl]
  simp only [List.length_map, List.length_range]
  rw [show l + i + 1 - l = i + 1 by omega]
  rw [List.getElem?_cons_succ, List.getElem?_append_left hq]
  simp [List.getElem?_range h]

theorem count_map_range_eq_one {α : Type} [DecidableEq α] (f : Nat → α)
    (hf : Function.Injective f) (n i : Nat) (h : i < n) :
    ((List.range n).map f).count (f i) = 1 := by
  rw [List.count_map_of_injective _ f hf]
  exact List.count_eq_one_of_mem (List.nodup_range n) (List.mem_range.mpr h)

theorem preHook_injective : Function.Injective StopEvent.preHook := by
  intro a b h
  cases h
  rfl

theorem postHook_injective : Function.Injective StopEvent.postHook := by
  intro a b h
  cases h
  rfl

theorem stopTrace_count_pre (p l q i : Nat) (h : i < p) :
    (stopTrace p l q).count (StopEvent.preHook i) = 1 := by
  simp only [stopTrace, List.count_cons, List.count_append]
  rw [count_map_range_eq_one StopEvent.preHook preHook_injective p i h]
  rw [List.count_eq_zero_of_not_mem (by simp), List.count_eq_zero_of_not_mem (by simp)]
  simp

theorem stopTrace_count_post (p l q i : Nat) (h : i < q) :
    (stopTrace p l q).count (StopEvent.postHook i) = 1 := by
  simp only [stopTrace, List.count_cons, List.count_append]
  rw [count_map_range_eq_one StopEvent.postHook postHook_injective q i h]
  rw [List.count_eq_zero_of_not_mem (a := StopEvent.postHook i) (l := (List.range p).map StopEvent.preHook) (by simp),
    List.count_eq_zero_of_not_mem (a := StopEvent.postHook i) (l := (List.range l).map StopEvent.closeListener) (by simp)]
  simp

theorem stopTrace_count_wait (p l q : Nat) :
    (stopTrace p l q).count StopEvent.waitReturned = 1 := by
  simp only [stopTrace, List.count_cons, List.count_append]
  rw [List.count_eq_zero_of_not_mem (a := StopEvent.waitReturned) (l := (List.range p).map StopEvent.preHook) (by simp),
    List.count_eq_zero_of_not_mem (a := StopEvent.waitReturned) (l := (List.range l).map StopEvent.closeListener) (by simp),
    List.count_eq_zero_of_not_mem (a := StopEvent.waitReturned) (l := (List.range q).map StopEvent.postHook) (by simp)]
  simp

/-- Claim C5: during shutdown, every registered pre-close hook runs exactly
once, in registration order, before any listener close; `Wait` returns
exactly once, and every registered post-close hook runs exactly once, in
registration order, strictly after the wait returned — and the wait (hence
every post hook and the exit) happens only once the connection counter is
zero. -/
theorem hooks_run_once_ordered (p l q : Nat) (conns : List Nat)
    (s : SysState) (hr : Reaches (initState conns) s) :
    (∀ i, i < p → (stopTrace p l q).count (StopEvent.preHook i) = 1) ∧
    (∀ i j, i < j → j < p → ∃ n m : Nat, n < m ∧
      (stopTrace p l q)[n]? = some (StopEvent.preHook i) ∧
      (stopTrace p l q)[m]? = some (StopEvent.preHook j)) ∧
    (∀ i k, i < p → k < l → ∃ n m : Nat, n < m ∧
      (stopTrace p l q)[n]? = some (StopEvent.preHook i) ∧
      (stopTrace p l q)[m]? = some (StopEvent.closeListener k)) ∧
    ((stopTrace p l q).count StopEvent.waitReturned = 1) ∧
    (∀ i, i < q → (stopTrace p l q).count (StopEvent.postHook i) = 1) ∧
    (∀ i j, i < j → j < q → ∃ n m : Nat, n < m ∧
      (stopTrace p l q)[n]? = some (StopEvent.postHook i) ∧
      (stopTrace p l q)[m]? = some (StopEvent.postHook j)) ∧
    (∀ i, i < q → ∃ n m : Nat, n < m ∧
      (stopTrace p l q)[n]? = some StopEvent.waitReturned ∧
      (stopTrace p l q)[m]? = some (StopEvent.postHook i)) ∧
    (s.phase = .exited → s.counter = 0) := by
  refine ⟨fun i hi => stopTrace_count_pre p l q i hi,
    fun i j hij hj => ⟨1 + i, 1 + j, by omega,
      stopTrace_getElem_pre p l q i (by omega), stopTrace_getElem_pre p l q j hj⟩,
    fun i k hi hk => ⟨1 + i, 1 + p + k, by omega,
      stopTrace_getElem_pre p l q i hi, stopTrace_getElem_close p l q k hk⟩,
    stopTrace_count_wait p l q,
    fun i hi => stopTrace_count_post p l q i hi,
    fun i j hij hj => ⟨2 + p + l + i, 2 + p + l + j, by omega,
      stopTrace_getElem_post p l q i (by omega), stopTrace_getElem_post p l q j hj⟩,
    fun i hi => ⟨1 + p + l, 2 + p + l + i, by omega,
      stopTrace_getElem_wait p l q, stopTrace_getElem_post p l q i hi⟩,
    ?_⟩
  intro hex
  exact reaches_gate hr (by intro h; cases h) hex

/-- Witness for C5 with two pre hooks, one listener and two post hooks. -/
theorem hooks_run_once_ordered_witness :
    (stopTrace 2 1 2).count (StopEvent.preHook 0) = 1 ∧
    (stopTrace 2 1 2).count (StopEvent.postHook 1) = 1 :=
  ⟨(hooks_run_once_ordered 2 1 2 [] (initState []) Relation.ReflTransGen.refl).1
      0 (by decide),
   (hooks_run_once_ordered 2 1 2 [] (initState []) Relation.ReflTransGen.refl).2.2.2.2.1
      1 (by decide)⟩

/-! ## Claim C6 -/

theorem debounce_burst_single_fire (D : Nat) (rest : List (Nat × FileOp)) :
    ∀ prev d : Nat, burstFrom D prev d rest = true →
      ∃ f : Nat, debounceRun D (some d) rest = [f] := by
  induction rest with
  | nil => exact fun prev d _ => ⟨d, rfl⟩
  | cons e rest ih =>
    obtain ⟨t, op⟩ := e
    intro prev d h
    simp only [burstFrom, Bool.and_eq_true, decide_eq_true_eq] at h
    obtain ⟨⟨⟨_hpt, htd⟩, hq⟩, hb⟩ := h
    have hnot : ¬ d ≤ t := by omega
    simp only [debounceRun, hnot, if_false, hq, if_true]
    exact ih t (t + D) hb

/-- Claim C6: every burst of K ≥ 1 qualifying file-change events lying
within one debounce window — each event re-arms the single-shot timer
before it fires — results in exactly one timer firing, hence exactly one
`Restart()` invocation, regardless of how many events coalesced. -/
theorem burst_triggers_exactly_one_restart (D t0 : Nat) (op0 : FileOp)
    (rest : List (Nat × FileOp)) (hq0 : qualifies op0 = true)
    (hb : burstFrom D t0 (t0 + D) rest = true) :
    (debounceRun D none ((t0, op0) :: rest)).length = 1 := by
  obtain ⟨f, hf⟩ := debounce_burst_single_fire D rest t0 (t0 + D) hb
  simp [debounceRun, hq0, hf]

/-- Witness for C6: five write/chmod events within a 200-tick window
produce exactly one restart. -/
theorem burst_triggers_exactly_one_restart_witness :
    (debounceRun 200 none
      [(0, FileOp.write), (30, FileOp.chmod), (60, FileOp.write),
       (90, FileOp.write), (120, FileOp.chmod)]).length = 1 :=
  burst_triggers_exactly_one_restart 200 0 FileOp.write
    [(30, FileOp.chmod), (60, FileOp.write), (90, FileOp.write),
     (120, FileOp.chmod)] (by decide) (by decide)

/-! ## Claim C7 -/

/-- First component names of an association list. -/
theorem findSocketFile_eq_none_iff (l : List (String × Nat)) (addr : String) :
    findSocketFile l addr = none ↔ ∀ p ∈ l, p.1 ≠ addr := by
  induction l with
  | nil => simp [findSocketFile]
  | cons hd tl ih =>
    obtain ⟨name, fd⟩ := hd
    by_cases h : name = addr
    · subst h
      simp [findSocketFile]
    · simp only [findSocketFile, if_neg h, ih, List.mem_cons]
      constructor
      · intro ha p hp
        rcases hp with hp | hp
        · subst hp; exact h
        · exact ha p hp
      · intro ha p hp
        exact ha p (Or.inr hp)

/-- Claim C7: in a child with socket-file support, `NewListener` for an
address present in the decoded `DescriptorIndex` (hence among the rebuilt
socket files) reconstructs the listener directly from the inherited
descriptor recorded there — no fresh bind — while an absent address gets a
normal fresh bind; and `initSocketFiles` rebuilds exactly the decoded index
as the socket-file list. -/
theorem child_listener_from_inherited_descriptor
    (idx : List (String × Nat)) (si : List (String × Nat))
    (l0 : List String) (addr : String) :
    (∀ fd : Nat, findSocketFile idx addr = some fd →
      (newListener true ⟨idx, si, l0⟩ addr).1 = .fromFile fd) ∧
    (findSocketFile idx addr = none →
      (newListener true ⟨idx, si, l0⟩ addr).1 = .freshBind) ∧
    (findSocketFile idx addr = none ↔ ∀ p ∈ idx, p.1 ≠ addr) ∧
    initSocketFilesChild (.ok idx) = .ok idx := by
  refine ⟨?_, ?_, findSocketFile_eq_none_iff idx addr, rfl⟩
  · intro fd h
    simp [newListener, h]
  · intro h
    simp [newListener, h]

/-- Witness for C7: address "a" is rebuilt from inherited descriptor 4,
address "b" is bound fresh. -/
theorem child_listener_from_inherited_descriptor_witness :
    (newListener true ⟨[("a", 4)], [("a", 4)], []⟩ "a").1 =
      ListenerOrigin.fromFile 4 ∧
    (newListener true ⟨[("a", 4)], [("a", 4)], []⟩ "b").1 =
      ListenerOrigin.freshBind :=
  ⟨(child_listener_from_inherited_descriptor [("a", 4)] [("a", 4)] [] "a").1
      4 (by decide),
   (child_listener_from_inherited_descriptor [("a", 4)] [("a", 4)] [] "b").2.1
      (by decide)⟩

/-! ## Claim C9 -/

/-- Claim C9: a child that fails to decode the exchange payload from
the inherited pipe crashes during `init` (the decode error is panicked),
terminating with Go's panic exit status 2 — non-zero — before any listener
is created: it never begins serving. -/
theorem child_decode_failure_exits_nonzero (e : Unit)
    (c : Nat) (hc : (childInit (.error e)).exitStatus = some c) :
    childInit (.error e) =
      { exitStatus := some 2, socketFiles := [], listeners := [] } ∧
    c ≠ 0 ∧
    (childInit (.error e)).listeners = [] := by
  refine ⟨rfl, ?_, rfl⟩
  have : (2 : Nat) = c := by
    have h2 : (childInit (.error e)).exitStatus = some 2 := rfl
    rw [h2] at hc
    exact Option.some.inj hc
  omega

/-- Witness for C9 at the concrete decode error. -/
theorem child_decode_failure_exits_nonzero_witness :
    childInit (.error ()) =
      { exitStatus := some 2, socketFiles := [], listeners := [] } :=
  (child_decode_failure_exits_nonzero () 2 rfl).1

/-! ## Claim C8 -/

theorem parent_records_descriptors (addrs : List String) :
    ∀ s : PkgState, addrs.Nodup →
      (∀ a ∈ addrs, findSocketFile s.socketFiles a = none) →
      (newListeners true s addrs).2.socketFiles =
        s.socketFiles ++
          (List.enumFrom (s.socketFiles.length + 4) addrs).map
            (fun p => (p.2, p.1)) ∧
      (newListeners true s addrs).2.socketIndex =
        s.socketIndex ++
          (List.enumFrom (s.socketFiles.length + 4) addrs).map
            (fun p => (p.2, p.1)) := by
  induction addrs with
  | nil => intro s _ _; simp [newListeners]
  | cons a rest ih =>
    intro s hnd hnone
    have hna : findSocketFile s.socketFiles a = none :=
      hnone a (List.mem_cons_self a rest)
    have hstep : newListener true s a =
        (.freshBind,
         { socketFiles := s.socketFiles ++ [(a, s.socketFiles.length + 4)],
           socketIndex := s.socketIndex ++ [(a, s.socketFiles.length + 4)],
           listeners := s.listeners ++ [a] }) := by
      simp [newListener, hna]
    set s1 : PkgState :=
      { socketFiles := s.socketFiles ++ [(a, s.socketFiles.length + 4)],
        socketIndex := s.socketIndex ++ [(a, s.socketFiles.length + 4)],
        listeners := s.listeners ++ [a] } with hs1
    have hrest : ∀ b ∈ rest, findSocketFile s1.socketFiles b = none := by
      intro b hb
      rw [findSocketFile_eq_none_iff]
      intro q hq
      rcases List.mem_append.mp hq with hq | hq
      · exact (findSocketFile_eq_none_iff s.socketFiles b).mp
          (hnone b (List.mem_cons_of_mem a hb)) q hq
      · have hqa : q = (a, s.socketFiles.length + 4) := by simpa using hq
        subst hqa
        intro hab
        apply (List.nodup_cons.mp hnd).1
        have hab2 : a = b := hab
        rw [hab2]
        exact hb
    have hih := ih s1 (List.nodup_cons.mp hnd).2 hrest
    have hlen : s1.socketFiles.length = s.socketFiles.length + 1 := by
      simp [hs1]
    have hproj0 : (newListeners true s (a :: rest)).2 =
        (newListeners true (newListener true s a).2 rest).2 := rfl
    have hproj : (newListeners true s (a :: rest)).2 =
        (newListeners true s1 rest).2 := by
      rw [hproj0, hstep]
    rw [hproj]
    rw [hlen] at hih
    refine ⟨?_, ?_⟩
    · rw [hih.1, hs1]
      rw [show s.socketFiles.length + 1 + 4 = s.socketFiles.length + 4 + 1 by
        omega]
      simp [List.enumFrom_cons, List.append_assoc]
    · rw [hih.2, hs1]
      rw [show s.socketFiles.length + 1 + 4 = s.socketFiles.length + 4 + 1 by
        omega]
      simp [List.enumFrom_cons, List.append_assoc]

/-- Claim C8: after the parent registers its listeners at distinct
addresses, the descriptor index records exactly `4 + i` for the `i`-th
tracked listener (0-based, in recording order); every recorded descriptor is
at least 4; the extra-file list the parent passes to the child is the pipe
read end followed by the tracked listener files in recording order, so
`ExtraFiles[0]` (the pipe) lands on child descriptor 3 and `ExtraFiles[1+i]`
(the `i`-th listener) on child descriptor `4 + i` — the recorded number
equals the descriptor of the position at which the file is passed. -/
theorem descriptor_index_matches_child_layout (addrs : List String)
    (hnd : addrs.Nodup) :
    (newListeners true initPkgState addrs).2.socketIndex =
      (List.enumFrom 4 addrs).map (fun p => (p.2, p.1)) ∧
    (∀ i : Nat, ∀ h : i < addrs.length,
      (newListeners true initPkgState addrs).2.socketIndex[i]? =
        some (addrs[i], 4 + i)) ∧
    (∀ q ∈ (newListeners true initPkgState addrs).2.socketIndex, 4 ≤ q.2) ∧
    extraFiles
        ((newListeners true initPkgState addrs).2.socketFiles.map Prod.fst) =
      "pipe-reader" :: addrs ∧
    childFdOfExtraFile 0 = 3 ∧
    (∀ i : Nat, childFdOfExtraFile (i + 1) = 4 + i) := by
  have hrec := parent_records_descriptors addrs initPkgState hnd
    (by intro a _; rfl)
  have hidx : (newListeners true initPkgState addrs).2.socketIndex =
      (List.enumFrom 4 addrs).map (fun p => (p.2, p.1)) := by
    simpa [initPkgState] using hrec.2
  have hfiles : (newListeners true initPkgState addrs).2.socketFiles =
      (List.enumFrom 4 addrs).map (fun p => (p.2, p.1)) := by
    simpa [initPkgState] using hrec.1
  refine ⟨hidx, ?_, ?_, ?_, rfl, fun i => by simp [childFdOfExtraFile]; omega⟩
  · intro i h
    rw [hidx]
    rw [List.getElem?_map, List.getElem?_enumFrom]
    simp [List.getElem?_eq_getElem h]
  · intro q hq
    rw [hidx] at hq
    obtain ⟨p, hp, hpq⟩ := List.mem_map.mp hq
    obtain ⟨i, a, rfl⟩ : ∃ i a, p = (i, a) := ⟨p.1, p.2, rfl⟩
    have := (List.mem_enumFrom hp).1
    simp only [← hpq]
    exact this
  · rw [hfiles]
    simp only [extraFiles, List.map_map]
    congr 1
    have : (Prod.fst ∘ fun p : Nat × String => (p.2, p.1)) = Prod.snd := rfl
    rw [this, List.enumFrom_map_snd]

/-- Witness for C8 with two addresses. -/
theorem descriptor_index_matches_child_layout_witness :
    (newListeners true initPkgState ["a", "b"]).2.socketIndex =
      [("a", 4), ("b", 5)] := by
  have h := (descriptor_index_matches_child_layout ["a", "b"] (by decide)).1
  rw [h]
  rfl

/-! ## Claim C10 -/

theorem newListeners_unsupported (addrs : List String) :
    ∀ s : PkgState, newListeners false s addrs =
      (addrs.map (fun _ => ListenerOrigin.rawBind), s) := by
  induction addrs with
  | nil => intro s; rfl
  | cons a rest ih =>
    intro s
    have h1 : newListeners false s (a :: rest) =
        ((newListener false s a).1 ::
          (newListeners false (newListener false s a).2 rest).1,
         (newListeners false (newListener false s a).2 rest).2) := rfl
    have h2 : newListener false s a = (ListenerOrigin.rawBind, s) := rfl
    rw [h1, h2]
    simp [ih s]

/-- Claim C10: without socket-file support every `NewListener` call returns
the fresh OS bind raw — the package state is untouched, nothing is wrapped
and nothing registered — so a connection accepted from such a listener never
runs `waitGroup.Add` (counter delta 0), the coordinator's listener set stays
empty from a fresh start, and `Stop`'s close loop has no listener to close
(its trace contains no close event). -/
theorem unsupported_platform_raw_listener (addrs : List String)
    (s : PkgState) :
    (newListeners false s addrs).2 = s ∧
    (∀ o ∈ (newListeners false s addrs).1, o = ListenerOrigin.rawBind) ∧
    (∀ o ∈ (newListeners false s addrs).1,
      acceptCounterDelta (isGraceful o) = 0) ∧
    (newListeners false initPkgState addrs).2.listeners = [] ∧
    (∀ p q k : Nat, StopEvent.closeListener k ∉
      stopTrace p (newListeners false initPkgState addrs).2.listeners.length q)
    := by
  have hall := newListeners_unsupported addrs
  refine ⟨by rw [hall s], ?_, ?_, by rw [hall initPkgState]; rfl, ?_⟩
  · intro o ho
    rw [hall s] at ho
    obtain ⟨x, _, rfl⟩ := List.mem_map.mp ho
    rfl
  · intro o ho
    rw [hall s] at ho
    obtain ⟨x, _, rfl⟩ := List.mem_map.mp ho
    rfl
  · intro p q k
    rw [hall initPkgState]
    simp [initPkgState, stopTrace]

/-- Witness for C10: the raw listener contributes nothing to the counter. -/
theorem unsupported_platform_raw_listener_witness :
    acceptCounterDelta (isGraceful ListenerOrigin.rawBind) = 0 :=
  (unsupported_platform_raw_listener ["x"] initPkgState).2.2.1
    ListenerOrigin.rawBind (by decide)

end Grace
